import Mathlib

/-!
Verification development for the Strata compositor.

This file gives a shallow embedding of the parts of the repository that the
frozen claims are about: the workspace collection and dwindle layout tree
(src/src/workspaces.rs), the modifier state machine
(src/src/state/input.rs, src/src/state.rs), the keybind registry
(src/src/api/input.rs, src/src/state/input.rs), the process-exit and
line-read bridges (src/src/state/process.rs, src/src/util/read_line_cb.rs,
src/src/api/meta/child.rs), and the freeze/scope discipline of the script
runtime bridge (spec section 4.6).

Windows are identified by the identity of their underlying platform window
handle, modelled as a natural number.  Machine integers of the source
(u8, u16, u32, i32, i64) are modelled as Nat or Int; the one place where
wrap-around matters (the u32 subtraction in handle_mods) is modelled
explicitly.
-/

set_option autoImplicit false

namespace Strata

/-! ## Dwindle layout tree

The enum `Dwindle` is declared in src/src/workspaces.rs (lines 58-69).
Its operations live in the tiling module, which is not among the provided
source files; they are modelled from the spec (section 4.3) below.
-/

/-- Split orientation, from src/src/workspaces.rs lines 65-69. -/
inductive HorizontalOrVertical : Type where
  | Horizontal : HorizontalOrVertical
  | Vertical : HorizontalOrVertical
deriving DecidableEq, Repr

/-- Binary layout tree, from src/src/workspaces.rs lines 58-63.
A leaf stores the identity of the window it holds; the split fraction
(an f32 in the source, always the literal 0.5 at the only call site)
is modelled as a rational number. -/
inductive Dwindle : Type where
  | Empty : Dwindle
  | Window (w : Nat) : Dwindle
  | Split (s : HorizontalOrVertical) (r : ℚ) (l : Dwindle) (rt : Dwindle) : Dwindle
deriving DecidableEq, Repr

namespace Dwindle

/-- The window identities of the Window leaves, left to right. -/
def leaves : Dwindle → List Nat
  | .Empty => []
  | .Window w => [w]
  | .Split _ _ l rt => l.leaves ++ rt.leaves

/-- Depth of the right spine, the path along which insertion descends. -/
def rightDepth : Dwindle → Nat
  | .Split _ _ _ rt => rightDepth rt + 1
  | _ => 0

/-- Modelled from the spec: the tiling module (not under src/) chooses the
next split axis; section 3 says the axis "alternates deterministically as
tree depth increases", and section 9 leaves the tie-break open, so we
alternate with the depth of the insertion path (the right spine). -/
def next_split (t : Dwindle) : HorizontalOrVertical :=
  if t.rightDepth % 2 = 0 then .Horizontal else .Vertical

/-- Modelled from the spec: Dwindle::insert of the tiling module (not under
src/), following section 4.3: an Empty tree becomes Window(handle); a single
Window(existing) becomes Split with the existing window on the left and the
new one on the right; a tree with structure applies the same rule recursively
at the most recently created leaf, which insertion keeps on the right spine. -/
def insert (t : Dwindle) (w : Nat) (s : HorizontalOrVertical) (r : ℚ) : Dwindle :=
  match t with
  | .Empty => .Window w
  | .Window v => .Split s r (.Window v) (.Window w)
  | .Split s0 r0 l rt => .Split s0 r0 l (rt.insert w s r)

/-- Modelled from the spec: Dwindle::remove of the tiling module (not under
src/), following section 4.3: the parent Split of the leaf holding the window
is replaced by the sibling subtree; removing the sole remaining window yields
Empty; removing a non-member is a no-op. -/
def remove (t : Dwindle) (w : Nat) : Dwindle :=
  match t with
  | .Empty => .Empty
  | .Window v => if v = w then .Empty else .Window v
  | .Split s r l rt =>
    if l = .Window w then rt
    else if rt = .Window w then l
    else .Split s r (l.remove w) (rt.remove w)

end Dwindle

/-! ## Workspace and Workspaces

From src/src/workspaces.rs.  A workspace owns an ordered window list and a
layout tree.  The window list stores Arc-shared StrataWindow records whose
identity is their smithay window; list membership tests in the source compare
that identity, so the list is modelled as a list of window identities.
refresh_geometry (tiling module, not under src/) only rewrites the rec
rectangle of each window (spec section 4.3); on the identity/structure
projection modelled here it is the identity function. -/

structure Workspace : Type where
  windows : List Nat
  layout_tree : Dwindle
deriving DecidableEq, Repr

namespace Workspace

/-- Workspace::new, src/src/workspaces.rs lines 90-92. -/
def new : Workspace := { windows := [], layout_tree := .Empty }

/-- Modelled from the spec: refresh_geometry of the tiling module (not under
src/) recomputes the rec rectangle of every window leaf (section 4.3); it does
not change the window list or the tree structure, so on this model it is the
identity. -/
def refresh_geometry (ws : Workspace) : Workspace := ws

/-- Workspace::add_window, src/src/workspaces.rs lines 102-107: retain all
entries whose smithay window differs from the new window, push the new window,
insert it into the layout tree (the split axis argument is computed on the
tree before insertion), then refresh geometry. -/
def add_window (ws : Workspace) (w : Nat) : Workspace :=
  let windows := (ws.windows.filter (fun v => v ≠ w)) ++ [w]
  let tree := ws.layout_tree.insert w ws.layout_tree.next_split (1 / 2)
  refresh_geometry { windows := windows, layout_tree := tree }

/-- Workspace::remove_window, src/src/workspaces.rs lines 109-122: retain
drops every entry equal to the window, recording the dropped handle; the tree
removal and a geometry refresh follow.  Returns the new workspace together
with the removed handle (None when the window was absent). -/
def remove_window (ws : Workspace) (w : Nat) : Workspace × Option Nat :=
  let removed := if ws.windows.contains w then some w else none
  (refresh_geometry
    { windows := ws.windows.filter (fun v => v ≠ w),
      layout_tree := ws.layout_tree.remove w },
   removed)

/-- Workspace::contains_window, src/src/workspaces.rs lines 200-202. -/
def contains_window (ws : Workspace) (w : Nat) : Bool :=
  ws.windows.contains w

end Workspace

/-- The workspace collection, src/src/workspaces.rs lines 53-56.  The current
index is a u8 in the source; it is modelled as a Nat. -/
structure Workspaces : Type where
  workspaces : List Workspace
  current : Nat
deriving DecidableEq, Repr

namespace Workspaces

/-- Workspaces::new, src/src/workspaces.rs lines 212-217. -/
def new (workspaceamount : Nat) : Workspaces :=
  { workspaces := List.replicate workspaceamount Workspace.new, current := 0 }

/-- Workspaces::activate, src/src/workspaces.rs lines 243-245: the source
assigns the id to current unconditionally, with no bounds check. -/
def activate (wss : Workspaces) (id : Nat) : Workspaces :=
  { wss with current := id }

/-- Workspaces::current / current_mut, src/src/workspaces.rs lines 227-233:
the source indexes the vector with the current index, panicking when it is out
of range; the panic is modelled by None. -/
def currentWorkspace (wss : Workspaces) : Option Workspace :=
  wss.workspaces[wss.current]?

/-- Workspaces::workspace_from_window, src/src/workspaces.rs lines 239-241:
index of the first workspace containing the window. -/
def workspace_from_window (wss : Workspaces) (w : Nat) : Option Nat :=
  wss.workspaces.findIdx? (fun ws => ws.contains_window w)

/-- Workspaces::move_window_to_workspace, src/src/workspaces.rs lines
246-256: remove the window from the first workspace containing it (if any),
then add the removed handle to the target workspace.  The target indexing of
the source panics on an out-of-range target; the panic is modelled by None.
When no workspace contains the window, nothing is removed and the target is
never indexed, so the call returns the state unchanged. -/
def move_window_to_workspace (wss : Workspaces) (w : Nat) (target : Nat) :
    Option Workspaces :=
  match wss.workspace_from_window w with
  | none => some wss
  | some i =>
    match wss.workspaces[i]? with
    | none => none
    | some ws =>
      let (ws2, removed) := ws.remove_window w
      let wss1 := { wss with workspaces := wss.workspaces.set i ws2 }
      match removed with
      | none => some wss1
      | some rw =>
        (wss1.workspaces[target]?).map
          (fun tws =>
            { wss1 with
              workspaces := wss1.workspaces.set target (tws.add_window rw) })

end Workspaces

/-! ## Hit testing (claim C9)

From src/src/workspaces.rs lines 78-88 and 184-198.  Logical coordinates are
i32 in the source, modelled as Int.  The pointer position is an f64 point;
it is modelled with rational coordinates, on which the comparisons of the
source are exact.  The per-window data read from the platform window handle
(smithay bbox, geometry origin, input region) is supplied by a WinAttrs
record of functions of the window identity; the rec rectangle assigned by the
layout engine is supplied the same way. -/

/-- An integer point (smithay Point of i32 logical coordinates). -/
structure Pt : Type where
  x : Int
  y : Int
deriving DecidableEq, Repr

/-- Pointwise sum. -/
def Pt.add (a b : Pt) : Pt := { x := a.x + b.x, y := a.y + b.y }

/-- Pointwise difference. -/
def Pt.sub (a b : Pt) : Pt := { x := a.x - b.x, y := a.y - b.y }

/-- An integer rectangle (smithay Rectangle of i32 logical coordinates):
origin plus size. -/
structure Rect : Type where
  loc : Pt
  size : Pt
deriving DecidableEq, Repr

/-- A point with rational coordinates, modelling the f64 pointer position. -/
structure QPt : Type where
  x : ℚ
  y : ℚ
deriving DecidableEq, Repr

/-- Pointwise difference of rational points. -/
def QPt.sub (a b : QPt) : QPt := { x := a.x - b.x, y := a.y - b.y }

/-- The rational point of an integer point (Point::to_f64). -/
def Pt.toQ (p : Pt) : QPt := { x := (p.x : ℚ), y := (p.y : ℚ) }

/-- Rectangle::contains of smithay on the f64 rectangle of an integer
rectangle: the point is inside the half-open box. -/
def Rect.containsQ (r : Rect) (p : QPt) : Bool :=
  decide ((r.loc.x : ℚ) ≤ p.x) && decide (p.x < (r.loc.x : ℚ) + (r.size.x : ℚ)) &&
  decide ((r.loc.y : ℚ) ≤ p.y) && decide (p.y < (r.loc.y : ℚ) + (r.size.y : ℚ))

/-- The platform data window_under reads, as functions of window identity:
wbbox is smithay_window.bbox(), wgeo is smithay_window.geometry().loc,
winput is smithay_window.is_in_input_region, wrec is the rec rectangle the
layout engine assigned to the StrataWindow. -/
structure WinAttrs : Type where
  wbbox : Nat → Rect
  wgeo : Nat → Pt
  winput : Nat → QPt → Bool
  wrec : Nat → Rect

/-- StrataWindow::bbox, src/src/workspaces.rs lines 79-83: the smithay bbox
translated by rec.loc - geometry().loc. -/
def WinAttrs.sbbox (a : WinAttrs) (w : Nat) : Rect :=
  let b := a.wbbox w
  { loc := (b.loc.add ((a.wrec w).loc.sub (a.wgeo w))), size := b.size }

/-- StrataWindow::render_location, src/src/workspaces.rs lines 85-87. -/
def WinAttrs.render_location (a : WinAttrs) (w : Nat) : Pt :=
  (a.wrec w).loc.sub (a.wgeo w)

/-- Workspace::window_under, src/src/workspaces.rs lines 184-198: filter the
window list by bbox containment of the point, then find_map the first window
whose input region contains the point relative to its render location,
returning that window with its render location. -/
def Workspace.window_under (a : WinAttrs) (ws : Workspace) (p : QPt) :
    Option (Nat × Pt) :=
  (ws.windows.filter (fun w => (a.sbbox w).containsQ p)).findSome?
    (fun w =>
      let rl := a.render_location w
      if a.winput w (p.sub rl.toQ) then some (w, rl) else none)

/-! ## Modifier state machine (claim C3)

From Compositor::handle_mods, src/src/state/input.rs lines 175-236 (the copy
in src/src/state.rs lines 600-657 is identical except that it lacks the Hyper
keysyms).  Modifier is a u16 bitflags set; xkb serialized counts are u32.
Keysyms are identified by their raw codes (the constants listed in
src/src/state/input.rs lines 43-67). -/

/-- The xkb serialized modifier counts (u32 fields in the source). -/
structure SerializedMods : Type where
  depressed : Nat
  latched : Nat
  locked : Nat
  layout_effective : Nat
deriving DecidableEq, Repr

/-- smithay ModifiersState: the derived flags plus the serialized counts.
The press branch of handle_mods compares two values of this structure for
full equality. -/
structure ModifiersState : Type where
  ctrl : Bool
  alt : Bool
  shift : Bool
  caps_lock : Bool
  logo : Bool
  num_lock : Bool
  iso_level3_shift : Bool
  iso_level5_shift : Bool
  serialized : SerializedMods
deriving DecidableEq, Repr

/-- smithay KeyState. -/
inductive KeyState : Type where
  | Pressed : KeyState
  | Released : KeyState
deriving DecidableEq, Repr

/-- Mods, src/src/state/input.rs lines 168-172: the held-modifier bitset
(u16 bitflags, modelled as a Nat bitmask) plus the last seen raw state. -/
structure Mods : Type where
  flags : Nat
  state : ModifiersState
deriving DecidableEq, Repr

/-- Wrapping u32 subtraction, the release-mode meaning of the subtraction
new.locked - old.locked in handle_mods (both operands are below 2 ^ 32). -/
def wsub (a b : Nat) : Nat :=
  if b ≤ a then a - b else a + 2 ^ 32 - b

/-- The keysym-to-bit mapping of handle_mods (src/src/state/input.rs lines
184-208), with the raw keysym codes of the comment block at lines 43-67 and
the bit constants of the Modifier bitflags at lines 79-95.  Unrecognized
keysyms map to the empty bitset. -/
def modflagOf (keysym : Nat) : Nat :=
  match keysym with
  | 0xffe7 => 16      -- Meta_L => Alt_L
  | 0xffe8 => 32      -- Meta_R => Alt_R
  | 0xffe1 => 1       -- Shift_L
  | 0xffe2 => 2       -- Shift_R
  | 0xffe3 => 4       -- Control_L
  | 0xffe4 => 8       -- Control_R
  | 0xffe9 => 16      -- Alt_L
  | 0xffea => 32      -- Alt_R
  | 0xffeb => 64      -- Super_L
  | 0xffec => 128     -- Super_R
  | 0xfe03 => 256     -- ISO_Level3_Shift
  | 0xfe11 => 512     -- ISO_Level5_Shift
  | 0xffed => 1024    -- Hyper_L
  | 0xffee => 2048    -- Hyper_R
  | _ => 0

/-- Compositor::handle_mods, src/src/state/input.rs lines 175-236.  On press,
the mapped bit is XOR-toggled when both the depressed test and the
is_modifier test hold; on release it is XOR-toggled unconditionally; the
stored raw state is always replaced by the new one. -/
def handle_mods (m : Mods) (new_modstate : ModifiersState) (keysym : Nat)
    (kstate : KeyState) : Mods :=
  let old_modstate := m.state
  let modflag := modflagOf keysym
  match kstate with
  | .Pressed =>
    let depressed :=
      if new_modstate = old_modstate then true
      else decide (old_modstate.serialized.depressed < new_modstate.serialized.depressed)
    let is_modifier :=
      decide (wsub new_modstate.serialized.locked old_modstate.serialized.locked
        < new_modstate.serialized.depressed)
    if is_modifier && depressed then
      { flags := m.flags ^^^ modflag, state := new_modstate }
    else
      { flags := m.flags, state := new_modstate }
  | .Released => { flags := m.flags ^^^ modflag, state := new_modstate }

/-- One press followed by one release of the key, with the raw modifier
states accompanying the two events. -/
def pressRelease (k : Nat) (m : Mods) (p : ModifiersState × ModifiersState) : Mods :=
  handle_mods (handle_mods m p.1 k .Pressed) p.2 k .Released

/-- Run a sequence of (press, release) pairs on one key. -/
def runPairs (k : Nat) (m : Mods) (ps : List (ModifiersState × ModifiersState)) : Mods :=
  ps.foldl (pressRelease k) m

/-- The raw states of a press/release sequence on a single held modifier key
with no other keys interleaved: each press raises the depressed count from
the state stored at that moment and leaves the locked count unchanged (no
lock key is touched). -/
def validPresses (k : Nat) (m : Mods) : List (ModifiersState × ModifiersState) → Bool
  | [] => true
  | p :: rest =>
    (decide (m.state.serialized.depressed < p.1.serialized.depressed)
      && decide (p.1.serialized.locked = m.state.serialized.locked))
      && validPresses k (pressRelease k m p) rest

/-! ## Call sequences over one workspace (claim C1) -/

/-- One workspace-mutating call of claim C1. -/
inductive WsOp : Type where
  | add (w : Nat) : WsOp
  | remove (w : Nat) : WsOp
deriving DecidableEq, Repr

/-- Apply one call to a workspace. -/
def applyOp (ws : Workspace) (op : WsOp) : Workspace :=
  match op with
  | .add w => ws.add_window w
  | .remove w => (ws.remove_window w).1

/-- Run a sequence of calls. -/
def runOps (ws : Workspace) (ops : List WsOp) : Workspace :=
  ops.foldl applyOp ws

/-- A call sequence in which add_window is only invoked with windows that are
not already present in the workspace (remove_window is unrestricted). -/
def freshAdds (ws : Workspace) : List WsOp → Bool
  | [] => true
  | .add w :: rest => !ws.windows.contains w && freshAdds (ws.add_window w) rest
  | .remove w :: rest => freshAdds (ws.remove_window w).1 rest

/-! ## Process exit delivery (claim C6)

From src/src/state/process.rs lines 64-112 (src/src/state/process_state.rs
lines 64-109 is the same dispatch).  Exit events reaped by the SIGCHLD
handler arrive on a channel; the event-loop callback matches the wait status
and, when the pid has a registered callback in on_exit_cbs, executes it with
the two integer arguments shown at lines 88-93.  Script callback handles are
modelled as Nats, pids and the i32/i64 arguments as Ints. -/

/-- nix WaitStatus, restricted to the two constructors the dispatch handles. -/
inductive WaitStatus : Type where
  | Exited (pid : Int) (code : Int) : WaitStatus
  | Signaled (pid : Int) (sig : Int) : WaitStatus
deriving DecidableEq, Repr

/-- FxIndexMap::get on the on_exit_cbs registry: first entry with the pid. -/
def pidLookup (cbs : List (Int × Nat)) (pid : Int) : Option Nat :=
  (cbs.find? (fun e => e.1 = pid)).map (fun e => e.2)

/-- The channel-event dispatch of ProcessState::new (src/src/state/process.rs
lines 84-107): one exit event produces one callback invocation when the pid
is registered, with arguments (code, 0) for a normal exit and (0, signal) for
a signal-caused death, and no invocation otherwise.  The result lists the
invocations (callback handle, argument pair) the event produces. -/
def handleChldEvent (cbs : List (Int × Nat)) (ws : WaitStatus) :
    List (Nat × (Int × Int)) :=
  match ws with
  | .Exited pid code =>
    match pidLookup cbs pid with
    | some cb => [(cb, (code, 0))]
    | none => []
  | .Signaled pid sig =>
    match pidLookup cbs pid with
    | some cb => [(cb, (0, sig))]
    | none => []

/-- Exactly one component of the delivered pair is nonzero (the wording of
claim C6 and spec section 4.5). -/
def exactlyOneNonzero (p : Int × Int) : Prop :=
  (p.1 ≠ 0 ∧ p.2 = 0) ∨ (p.1 = 0 ∧ p.2 ≠ 0)

instance (p : Int × Int) : Decidable (exactlyOneNonzero p) := by
  unfold exactlyOneNonzero; infer_instance

/-! ## Line-buffered reading (claim C7)

From ReadLineCb::process_events, src/src/util/read_line_cb.rs lines 56-85,
together with the calloop callback registered by register_read_line_cb,
src/src/api/meta/child.rs lines 78-94, which hands the accumulated buffer
minus its last byte to the script callback and relies on process_events to
clear the buffer afterwards.

One readiness notification is modelled by the bytes the non-blocking stream
yields before it would block (avail) and whether the stream is at end of
file.  The loop of process_events repeatedly calls read_until(newline):
a call that finds a newline appends the bytes through it to the buffer and
returns their count; with no newline left, it appends the remaining bytes
and returns their count at end of file (zero when there are none), and fails
with WouldBlock otherwise, leaving the partial bytes appended.  After every
read_until call that returned a positive count the callback receives the
buffer minus its last byte and the buffer is cleared; a zero count or an
error ends the loop.  procLoop fuses this byte by byte: consumed records
whether the current read_until call has consumed bytes.  The result pairs
the list of delivered chunks with the buffer retained for the next
notification. -/

/-- The process_events drain loop on one readiness notification. -/
def procLoop (consumed : Bool) (buf : List Nat) (avail : List Nat) (eof : Bool) :
    List (List Nat) × List Nat :=
  match avail with
  | [] =>
    if eof then
      if consumed then ([buf.dropLast], []) else ([], buf)
    else ([], buf)
  | b :: rest =>
    if b = 10 then
      let (ds, fb) := procLoop false [] rest eof
      (buf :: ds, fb)
    else
      procLoop true (buf ++ [b]) rest eof

/-- One readiness notification of a still-open stream (read ends with
WouldBlock rather than end of file), starting from the retained buffer. -/
def processNotification (buf : List Nat) (avail : List Nat) :
    List (List Nat) × List Nat :=
  procLoop false buf avail false

/-- Written from the words of the spec (section 4.5) for comparison with the
code: split a byte sequence into its newline-terminated chunks, each with the
trailing newline stripped, plus the partial trailing line after the last
newline. -/
def splitLinesSpec : List Nat → List (List Nat) × List Nat
  | [] => ([], [])
  | b :: bs =>
    if b = 10 then ([] :: (splitLinesSpec bs).1, (splitLinesSpec bs).2)
    else
      match splitLinesSpec bs with
      | (l :: ls, r) => ((b :: l) :: ls, r)
      | ([], r) => ([], b :: r)

/-! ## Keybind registry (claim C8)

The pattern type is KeyPattern (src/src/state/input.rs lines 162-166): a u16
modifier bitset plus a keysym, both modelled as Nats.  Registration is
global_keybinds.insert in the input.keybind callback (src/src/api/input.rs
lines 72-90); dispatch is global_keybinds.get in Compositor::on_keyboard
(src/src/state/input.rs lines 250-277).  The map container is declared in a
config file that is not among the provided sources, but both containers this
repository uses for it (std HashMap in src/src/state.rs, FxIndexMap in
src/src/state/process.rs) have insert-or-replace semantics for an equal key;
the registry is modelled as a finite map over an association list with that
semantics.  Callback handles are modelled as Nats. -/

/-- An immutable (modifier bitset, keysym) pair. -/
structure KeyPattern : Type where
  modifier : Nat
  key : Nat
deriving DecidableEq, Repr

/-- Map insert with replace-on-equal-key semantics (HashMap::insert /
IndexMap::insert): an existing binding of the pattern is overwritten in
place, otherwise the binding is appended. -/
def kbInsert (m : List (KeyPattern × Nat)) (k : KeyPattern) (v : Nat) :
    List (KeyPattern × Nat) :=
  if m.any (fun e => e.1 = k) then
    m.map (fun e => if e.1 = k then (k, v) else e)
  else m ++ [(k, v)]

/-- Map lookup: the value of the first entry with the pattern. -/
def kbGet (m : List (KeyPattern × Nat)) (k : KeyPattern) : Option Nat :=
  (m.find? (fun e => e.1 = k)).map (fun e => e.2)

/-- The callback Compositor::on_keyboard executes for an intercepted pattern:
exactly the registry lookup result (src/src/state/input.rs lines 258-264). -/
def dispatchKeybind (m : List (KeyPattern × Nat)) (k : KeyPattern) : Option Nat :=
  kbGet m k

/-! ## Child stream reader registration (claim C10)

From src/src/api/meta/child.rs lines 62-125.  on_line_stdout takes the
child's stdout pipe out of the Child record (Option::take) and passes it to
register_read_line_cb, which registers a reader when given Some and returns
successfully registering nothing when given None.  Pipes and callback handles
are modelled as Nats; the event-source registrations are modelled as the list
of (pipe, callback) pairs inserted into the event loop. -/

/-- The pipe handles of a spawned child (std::process::Child). -/
structure ChildProc : Type where
  stdout : Option Nat
  stderr : Option Nat
deriving DecidableEq, Repr

/-- register_read_line_cb, src/src/api/meta/child.rs lines 62-97: a None
stream short-circuits to success without registering; a Some stream inserts a
ReadLineCb event source for it. -/
def register_read_line_cb (regs : List (Nat × Nat)) (s : Option Nat) (cb : Nat) :
    List (Nat × Nat) :=
  match s with
  | none => regs
  | some src => regs ++ [(src, cb)]

/-- The on_line_stdout callback, src/src/api/meta/child.rs lines 99-111:
stdout.take() empties the slot and the taken value is registered. -/
def on_line_stdout (c : ChildProc) (regs : List (Nat × Nat)) (cb : Nat) :
    ChildProc × List (Nat × Nat) :=
  ({ c with stdout := none }, register_read_line_cb regs c.stdout cb)

/-- The on_line_stderr callback, src/src/api/meta/child.rs lines 113-125. -/
def on_line_stderr (c : ChildProc) (regs : List (Nat × Nat)) (cb : Nat) :
    ChildProc × List (Nat × Nat) :=
  ({ c with stderr := none }, register_read_line_cb regs c.stderr cb)

/-! ## Freeze/scope discipline (claim C2)

Modelled from the spec: the FrozenCompositor type (crate::state, used by
src/src/api.rs lines 35-47 and src/src/api/input.rs lines 75-90) is not among
the provided source files.  Section 4.6 specifies the discipline: a scope
hands the body a temporary exclusive reference, only one scope is active at a
time (opening a second one fails deterministically), and an interpreter-held
handle dereferenced outside an active scope errors.  The discipline is
modelled over a trace language of scripted actions run against the single
"a scope is active" flag. -/

/-- Failure modes of the scoping discipline. -/
inductive FreezeError : Type where
  | reentrant : FreezeError
  | inactive : FreezeError
deriving DecidableEq, Repr

/-- Traces of script/native actions touching the compositor handle. -/
inductive Script : Type where
  | nop : Script
  | seq (a b : Script) : Script
  | withComp (body : Script) : Script
  | derefComp : Script
deriving DecidableEq, Repr

/-- Modelled from the spec: run a trace against the scope-active flag.
Opening a scope while one is active fails with reentrant; the body runs with
the scope active, and the flag is lowered as soon as the body returns
(invalidating the reference); dereferencing the stashed compositor handle
errors unless a scope is active. -/
def runScript : Script → Bool → Except FreezeError Bool
  | .nop, active => .ok active
  | .seq a b, active =>
    match runScript a active with
    | .error e => .error e
    | .ok active2 => runScript b active2
  | .withComp body, active =>
    if active then .error .reentrant
    else
      match runScript body true with
      | .error e => .error e
      | .ok _ => .ok false
  | .derefComp, active =>
    if active then .ok active else .error .inactive

/-! ## Invariants named by the claims -/

/-- The leaf/list correspondence invariant of spec section 3, strengthened to
the exact correspondence the operations maintain: the leaves of the layout
tree, read left to right, are the window list, and the list holds no
duplicates. -/
def WsInv (ws : Workspace) : Prop :=
  ws.layout_tree.leaves = ws.windows ∧ ws.windows.Nodup

instance (ws : Workspace) : Decidable (WsInv ws) := by
  unfold WsInv; infer_instance

/-- The Workspaces invariant of spec section 3: the current index is in
range. -/
def WssInv (wss : Workspaces) : Prop :=
  wss.current < wss.workspaces.length

instance (wss : Workspaces) : Decidable (WssInv wss) := by
  unfold WssInv; infer_instance

end Strata

namespace Strata

/-! ## Helper lemmas -/

theorem leaves_insert (t : Dwindle) (w : Nat) (s : HorizontalOrVertical) (r : ℚ) :
    (t.insert w s r).leaves = t.leaves ++ [w] := by
  induction t with
  | Empty => rfl
  | Window v => rfl
  | Split s0 r0 l rt ihl ihr =>
    simp [Dwindle.insert, Dwindle.leaves, ihr]

theorem filter_ne_of_not_mem (L : List Nat) (w : Nat) (h : w ∉ L) :
    L.filter (fun v => v ≠ w) = L :=
  List.filter_eq_self.mpr (fun a ha => by
    simp only [ne_eq, decide_eq_true_eq]
    exact fun hh => h (hh ▸ ha))

theorem leaves_remove (t : Dwindle) (w : Nat) (h : t.leaves.Nodup) :
    (t.remove w).leaves = t.leaves.filter (fun v => v ≠ w) := by
  induction t with
  | Empty => rfl
  | Window v =>
    by_cases hv : v = w
    · subst hv; simp [Dwindle.remove, Dwindle.leaves]
    · simp [Dwindle.remove, Dwindle.leaves, hv]
  | Split s0 r0 l rt ihl ihr =>
    rw [Dwindle.leaves, List.nodup_append] at h
    obtain ⟨hl, hrt, hdisj⟩ := h
    simp only [Dwindle.remove]
    split_ifs with hL hR
    · subst hL
      have hw : w ∉ rt.leaves := fun hmem => hdisj (by simp [Dwindle.leaves]) hmem
      have hstep : ((Dwindle.Window w).leaves ++ rt.leaves).filter (fun v => v ≠ w)
          = rt.leaves := by
        rw [show (Dwindle.Window w).leaves ++ rt.leaves = w :: rt.leaves from rfl]
        rw [show (w :: rt.leaves).filter (fun v => v ≠ w)
            = rt.leaves.filter (fun v => v ≠ w) by simp]
        exact filter_ne_of_not_mem _ _ hw
      rw [Dwindle.leaves, hstep]
    · subst hR
      have hw : w ∉ l.leaves := fun hmem => hdisj hmem (by simp [Dwindle.leaves])
      have hstep : (l.leaves ++ (Dwindle.Window w).leaves).filter (fun v => v ≠ w)
          = l.leaves := by
        rw [List.filter_append, filter_ne_of_not_mem _ _ hw]
        simp [Dwindle.leaves]
      rw [Dwindle.leaves, hstep]
    · simp [Dwindle.leaves, List.filter_append, ihl hl, ihr hrt]

theorem wsInv_new : WsInv Workspace.new :=
  ⟨rfl, List.nodup_nil⟩

theorem wsInv_add_fresh (ws : Workspace) (w : Nat) (hInv : WsInv ws)
    (hw : w ∉ ws.windows) : WsInv (ws.add_window w) := by
  obtain ⟨hcorr, hnd⟩ := hInv
  have hfil : ws.windows.filter (fun v => v ≠ w) = ws.windows :=
    filter_ne_of_not_mem _ _ hw
  constructor
  · show (ws.layout_tree.insert w ws.layout_tree.next_split (1 / 2)).leaves
      = ws.windows.filter (fun v => v ≠ w) ++ [w]
    rw [leaves_insert, hcorr, hfil]
  · show (ws.windows.filter (fun v => v ≠ w) ++ [w]).Nodup
    rw [hfil, List.nodup_append]
    exact ⟨hnd, List.nodup_singleton w,
      fun a ha hb => by simp at hb; subst hb; exact hw ha⟩

theorem wsInv_remove (ws : Workspace) (w : Nat) (hInv : WsInv ws) :
    WsInv (ws.remove_window w).1 := by
  obtain ⟨hcorr, hnd⟩ := hInv
  have hndl : ws.layout_tree.leaves.Nodup := by rw [hcorr]; exact hnd
  constructor
  · show (ws.layout_tree.remove w).leaves = ws.windows.filter (fun v => v ≠ w)
    rw [leaves_remove _ _ hndl, hcorr]
  · exact hnd.filter _

theorem wsInv_runOps (ws : Workspace) (ops : List WsOp) (hInv : WsInv ws)
    (hFresh : freshAdds ws ops = true) : WsInv (runOps ws ops) := by
  induction ops generalizing ws with
  | nil => exact hInv
  | cons op rest ih =>
    cases op with
    | add w =>
      rw [freshAdds, Bool.and_eq_true] at hFresh
      obtain ⟨hop, hrest⟩ := hFresh
      have hnm : w ∉ ws.windows := by
        simp only [Bool.not_eq_true'] at hop
        simpa using hop
      exact ih (ws.add_window w) (wsInv_add_fresh ws w hInv hnm) hrest
    | remove w =>
      rw [freshAdds] at hFresh
      exact ih (ws.remove_window w).1 (wsInv_remove ws w hInv) hFresh

theorem freshAdds_append (ws : Workspace) (ops1 ops2 : List WsOp)
    (h : freshAdds ws (ops1 ++ ops2) = true) :
    freshAdds ws ops1 = true ∧ freshAdds (runOps ws ops1) ops2 = true := by
  induction ops1 generalizing ws with
  | nil => exact ⟨rfl, h⟩
  | cons op rest ih =>
    cases op with
    | add w =>
      rw [List.cons_append, freshAdds, Bool.and_eq_true] at h
      obtain ⟨hop, hrest⟩ := h
      obtain ⟨h1, h2⟩ := ih (ws.add_window w) hrest
      refine ⟨?_, h2⟩
      rw [freshAdds, Bool.and_eq_true]
      exact ⟨hop, h1⟩
    | remove w =>
      rw [List.cons_append, freshAdds] at h
      obtain ⟨h1, h2⟩ := ih (ws.remove_window w).1 h
      refine ⟨?_, h2⟩
      rw [freshAdds]
      exact h1

theorem xor_toggle_twice (a f : Nat) : a ^^^ f ^^^ f = a :=
  Nat.xor_cancel_right f a

theorem pressRelease_flags (k : Nat) (m : Mods) (p : ModifiersState × ModifiersState)
    (h1 : m.state.serialized.depressed < p.1.serialized.depressed)
    (h2 : p.1.serialized.locked = m.state.serialized.locked) :
    (pressRelease k m p).flags = m.flags := by
  have hne : p.1 ≠ m.state := by
    intro he
    rw [he] at h1
    exact lt_irrefl _ h1
  have hd : (if p.1 = m.state then true
      else decide (m.state.serialized.depressed < p.1.serialized.depressed)) = true := by
    rw [if_neg hne]
    exact decide_eq_true h1
  have hsub : wsub p.1.serialized.locked m.state.serialized.locked = 0 := by
    rw [h2]
    simp [wsub]
  have hm : decide (wsub p.1.serialized.locked m.state.serialized.locked
      < p.1.serialized.depressed) = true := by
    rw [hsub]
    exact decide_eq_true (Nat.lt_of_le_of_lt (Nat.zero_le _) h1)
  show (handle_mods (handle_mods m p.1 k .Pressed) p.2 k .Released).flags = m.flags
  rw [handle_mods, handle_mods]
  simp only [hd, hm, Bool.and_self, if_true, Bool.and_true, Bool.true_and]
  exact xor_toggle_twice m.flags (modflagOf k)

/-- C3: for every sequence of alternating press and release events on a
single tracked modifier key with no other keys interleaved (each press raises
the depressed count and leaves the locked count unchanged), handle_mods
leaves the held-modifier bitset exactly as it started: each press/release
pair toggles the mapped bit twice. -/
theorem handle_mods_press_release_round_trip (k : Nat) (m : Mods)
    (ps : List (ModifiersState × ModifiersState))
    (h : validPresses k m ps = true) :
    (runPairs k m ps).flags = m.flags := by
  induction ps generalizing m with
  | nil => rfl
  | cons p rest ih =>
    rw [validPresses, Bool.and_eq_true, Bool.and_eq_true] at h
    obtain ⟨⟨h1, h2⟩, hrest⟩ := h
    have h1n := of_decide_eq_true h1
    have h2n := of_decide_eq_true h2
    have hstep := pressRelease_flags k m p h1n h2n
    show (runPairs k (pressRelease k m p) rest).flags = m.flags
    rw [ih (pressRelease k m p) hrest, hstep]

/-- Witness for C3 at a concrete input: one press/release pair of Control_L
(keysym 0xffe3) starting from the empty bitset and a quiet raw state. -/
theorem handle_mods_press_release_round_trip_witness :
    (runPairs 0xffe3
      { flags := 0,
        state := ⟨false, false, false, false, false, false, false, false, ⟨0, 0, 0, 0⟩⟩ }
      [(⟨true, false, false, false, false, false, false, false, ⟨4, 0, 0, 0⟩⟩,
        ⟨false, false, false, false, false, false, false, false, ⟨0, 0, 0, 0⟩⟩)]).flags
    = ({ flags := 0,
         state := ⟨false, false, false, false, false, false, false, false, ⟨0, 0, 0, 0⟩⟩ } : Mods).flags :=
  handle_mods_press_release_round_trip 0xffe3 _ _ (by decide)

/-- C1 (amended): for every sequence of add_window/remove_window calls in
which add_window is only invoked with windows not already present in the
workspace, the window-list length equals the number of Window leaves of the
layout tree after every call (every prefix of such a sequence is again such a
sequence, so the equality holds at each intermediate state). -/
theorem leaf_list_correspondence (ops : List WsOp)
    (h : freshAdds Workspace.new ops = true) :
    ((runOps Workspace.new ops).windows.length
      = (runOps Workspace.new ops).layout_tree.leaves.length)
    ∧ ∀ ops2 rest, ops = ops2 ++ rest → freshAdds Workspace.new ops2 = true := by
  constructor
  · obtain ⟨hcorr, _⟩ := wsInv_runOps Workspace.new ops wsInv_new h
    rw [hcorr]
  · intro ops2 rest hsplit
    subst hsplit
    exact (freshAdds_append Workspace.new ops2 rest h).1

/-- Witness for C1 at a concrete input: add two windows, remove one. -/
theorem leaf_list_correspondence_witness :
    ((runOps Workspace.new [.add 1, .add 2, .remove 1]).windows.length
      = (runOps Workspace.new [.add 1, .add 2, .remove 1]).layout_tree.leaves.length)
    ∧ ∀ ops2 rest, ([WsOp.add 1, WsOp.add 2, WsOp.remove 1] : List WsOp) = ops2 ++ rest
      → freshAdds Workspace.new ops2 = true :=
  leaf_list_correspondence [.add 1, .add 2, .remove 1] (by decide)

/-- Counterexample to C1 as stated: calling add_window with a window already
present removes it from the window list (keeping the list length at 1) but
not from the layout tree, so the tree ends up holding the window in two
leaves and the 1:1 leaf/list correspondence fails. -/
theorem leaf_list_correspondence_cex :
    (runOps Workspace.new [.add 5, .add 5]).windows.length = 1
    ∧ (runOps Workspace.new [.add 5, .add 5]).layout_tree.leaves.length = 2
    ∧ (runOps Workspace.new [.add 5, .add 5]).layout_tree.leaves = [5, 5] := by
  refine ⟨rfl, rfl, rfl⟩

/-- C2 (spec-modelled): only one freeze/scope can be active at a time —
opening a scope while one is active fails deterministically with the
reentrancy error, both for a directly nested scope and from any state with
the scope flag raised — and a stashed compositor handle dereferenced outside
an active scope errors, while inside a scope it is usable. -/
theorem frozen_scope_discipline :
    (∀ body : Script, runScript (.withComp body) true = .error .reentrant)
    ∧ (∀ body : Script, runScript (.withComp (.withComp body)) false = .error .reentrant)
    ∧ runScript (.seq (.withComp .nop) .derefComp) false = .error .inactive
    ∧ runScript (.withComp .derefComp) false = .ok false := by
  refine ⟨fun body => rfl, fun body => rfl, rfl, rfl⟩

/-- C4 (amended): Workspaces::new(n) establishes the in-range invariant for
every positive workspace count, activate preserves it exactly when the id is
in range, and the other collection operations preserve it; but activate
itself performs no bounds check: an out-of-range id is stored as is, breaking
the invariant, and the IndexError-class failure only surfaces at the next
current()/current_mut() access (modelled as None). -/
theorem workspaces_current_invariant :
    (∀ n : Nat, 0 < n → WssInv (Workspaces.new n))
    ∧ (∀ (wss : Workspaces) (id : Nat), id < wss.workspaces.length
        → WssInv (wss.activate id))
    ∧ (∀ (wss : Workspaces) (id : Nat), ¬ id < wss.workspaces.length
        → (wss.activate id).current = id ∧ ¬ WssInv (wss.activate id))
    ∧ (∀ wss : Workspaces, ¬ WssInv wss → wss.currentWorkspace = none)
    ∧ (∀ (wss : Workspaces) (w t : Nat) (wss2 : Workspaces), WssInv wss
        → wss.move_window_to_workspace w t = some wss2 → WssInv wss2) := by
  refine ⟨?_, ?_, ?_, ?_, ?_⟩
  · intro n hn
    show 0 < (List.replicate n Workspace.new).length
    simpa using hn
  · intro wss id hid
    exact hid
  · intro wss id hid
    exact ⟨rfl, hid⟩
  · intro wss hinv
    exact List.getElem?_eq_none (Nat.le_of_not_lt hinv)
  · intro wss w t wss2 hinv h
    unfold Workspaces.move_window_to_workspace at h
    repeat' split at h
    all_goals try (rw [Option.map_eq_some'] at h; obtain ⟨tws, htws, h⟩ := h)
    all_goals cases h
    all_goals simp_all [WssInv, List.length_set]

/-- Witness for C4 at concrete inputs: three workspaces establish the
invariant, an in-range activate preserves it, an out-of-range activate breaks
it, and the broken state indexes to None. -/
theorem workspaces_current_invariant_witness :
    WssInv (Workspaces.new 3)
    ∧ WssInv ((Workspaces.new 3).activate 2)
    ∧ (((Workspaces.new 3).activate 7).current = 7
        ∧ ¬ WssInv ((Workspaces.new 3).activate 7))
    ∧ ((Workspaces.new 3).activate 7).currentWorkspace = none :=
  ⟨workspaces_current_invariant.1 3 (by decide),
   workspaces_current_invariant.2.1 (Workspaces.new 3) 2 (by decide),
   workspaces_current_invariant.2.2.1 (Workspaces.new 3) 7 (by decide),
   workspaces_current_invariant.2.2.2.1 ((Workspaces.new 3).activate 7) (by decide)⟩

/-- Counterexample to C4 as stated: activate does not fail fast on an
out-of-range workspace id — it stores the id unchecked, leaving the
collection in a state where the invariant 0 <= current < len fails and the
current-workspace access that follows returns no workspace (an index panic in
the source). -/
theorem workspaces_current_invariant_cex :
    ((Workspaces.new 5).activate 7).current = 7
    ∧ ((Workspaces.new 5).activate 7).workspaces.length = 5
    ∧ ¬ WssInv ((Workspaces.new 5).activate 7)
    ∧ ((Workspaces.new 5).activate 7).currentWorkspace = none := by
  refine ⟨rfl, rfl, by decide, by decide⟩

theorem findIdx?_eq_some_of_unique {α : Type} (p : α → Bool) (l : List α)
    (i : Nat) (x : α) (hx : l[i]? = some x) (hp : p x = true)
    (hother : ∀ (j : Nat) (y : α), l[j]? = some y → j ≠ i → p y = false) :
    l.findIdx? p = some i := by
  induction l generalizing i with
  | nil => cases hx
  | cons a l ih =>
    rw [List.findIdx?_cons, List.findIdx?_succ]
    cases i with
    | zero =>
      rw [List.getElem?_cons_zero, Option.some_inj] at hx
      subst hx
      rw [if_pos hp]
    | succ j =>
      have ha : p a = false :=
        hother 0 a List.getElem?_cons_zero (by omega)
      rw [if_neg (by simp [ha])]
      rw [List.getElem?_cons_succ] at hx
      rw [ih j hx (fun j2 y hy hne =>
        hother (j2 + 1) y (by simpa using hy) (by omega))]
      rfl

theorem findIdx?_eq_none_of_all {α : Type} (p : α → Bool) (l : List α)
    (h : ∀ (j : Nat) (y : α), l[j]? = some y → p y = false) :
    l.findIdx? p = none := by
  induction l with
  | nil => exact List.findIdx?_nil
  | cons a l ih =>
    rw [List.findIdx?_cons, List.findIdx?_succ]
    rw [if_neg (by simp [h 0 a List.getElem?_cons_zero])]
    rw [ih (fun j y hy => h (j + 1) y (by simpa using hy))]
    rfl

theorem not_mem_filter_ne (L : List Nat) (w : Nat) :
    w ∉ L.filter (fun v => v ≠ w) := by
  intro hmem
  have := (List.mem_filter.mp hmem).2
  simp at this

/-- C5 (amended): when window w is present in exactly one workspace i and the
in-range target t differs from i, move_window_to_workspace removes w from
workspace i and inserts it into workspace t, so that afterwards workspace i
does not contain w and workspace t contains w exactly once; and when w is
present in no workspace, the call is a no-op returning the collection
unchanged.  (When t equals the holding workspace the window is removed and
re-added there, so the source workspace still contains it; see the
counterexample.) -/
theorem move_window_to_workspace_spec :
    (∀ (wss : Workspaces) (w i t : Nat) (wsi : Workspace),
      wss.workspaces[i]? = some wsi
      → wsi.contains_window w = true
      → (∀ j : Fin wss.workspaces.length,
          (j : Nat) ≠ i → (wss.workspaces.get j).contains_window w = false)
      → t < wss.workspaces.length
      → t ≠ i
      → ∃ wss2, wss.move_window_to_workspace w t = some wss2
          ∧ (wss2.workspaces[i]?).map (fun ws => ws.contains_window w) = some false
          ∧ (wss2.workspaces[t]?).map (fun ws => ws.windows.count w) = some 1
          ∧ wss2.workspaces.length = wss.workspaces.length)
    ∧ (∀ (wss : Workspaces) (w t : Nat),
      (∀ j : Fin wss.workspaces.length,
          (wss.workspaces.get j).contains_window w = false)
      → wss.move_window_to_workspace w t = some wss) := by
  constructor
  · intro wss w i t wsi hi hw hother ht hti
    have hilt : i < wss.workspaces.length := (List.getElem?_eq_some.mp hi).1
    have hfind : wss.workspace_from_window w = some i := by
      apply findIdx?_eq_some_of_unique _ _ i wsi hi hw
      intro j y hy hne
      obtain ⟨hj, hyj⟩ := List.getElem?_eq_some.mp hy
      have := hother ⟨j, hj⟩ hne
      rw [List.get_eq_getElem] at this
      rw [← hyj]
      exact this
    have htws : wss.workspaces[t]? = some (wss.workspaces[t]) :=
      List.getElem?_eq_getElem ht
    have htw : (wss.workspaces[t]).contains_window w = false := by
      have := hother ⟨t, ht⟩ hti
      rwa [List.get_eq_getElem] at this
    have htnm : w ∉ (wss.workspaces[t]).windows := by
      rw [Workspace.contains_window] at htw
      simpa only [List.elem_eq_mem, decide_eq_false_iff_not] using htw
    have hw2 : wsi.windows.contains w = true := hw
    have hit : i ≠ t := fun he => hti he.symm
    refine ⟨{ wss with workspaces := (wss.workspaces.set i { windows := wsi.windows.filter (fun v => v ≠ w), layout_tree := wsi.layout_tree.remove w }).set t ((wss.workspaces[t]).add_window w) }, ?_, ?_, ?_, ?_⟩
    · simp only [Workspaces.move_window_to_workspace, hfind, hi,
        Workspace.remove_window, Workspace.refresh_geometry, hw2, if_true,
        List.getElem?_set_ne hit, htws, Option.map_some']
    · have hRc : ({ windows := wsi.windows.filter (fun v => v ≠ w), layout_tree := wsi.layout_tree.remove w } : Workspace).contains_window w = false := by
        rw [Workspace.contains_window]
        simp only [List.elem_eq_mem, decide_eq_false_iff_not]
        exact not_mem_filter_ne wsi.windows w
      rw [List.getElem?_set_ne hti, List.getElem?_set_self (by simpa using hilt),
        Option.map_some', hRc]
    · rw [List.getElem?_set_self (by simpa using ht), Option.map_some']
      have hcnt : ((wss.workspaces[t]).add_window w).windows.count w = 1 := by
        show ((wss.workspaces[t]).windows.filter (fun v => v ≠ w) ++ [w]).count w = 1
        rw [filter_ne_of_not_mem _ _ htnm, List.count_append,
          List.count_eq_zero.mpr htnm]
        simp
      rw [hcnt]
    · simp [List.length_set]
  · intro wss w t hnone
    have hfind : wss.workspace_from_window w = none := by
      apply findIdx?_eq_none_of_all
      intro j y hy
      obtain ⟨hj, hyj⟩ := List.getElem?_eq_some.mp hy
      have := hnone ⟨j, hj⟩
      rw [List.get_eq_getElem] at this
      rw [← hyj]
      exact this
    rw [Workspaces.move_window_to_workspace, hfind]

/-- Witness for C5 at concrete inputs: three workspaces with window 7 in
workspace 0, moved to workspace 2; and a collection without window 9, on
which the call is a no-op. -/
theorem move_window_to_workspace_spec_witness :
    (∃ wss2, (⟨[⟨[7], .Window 7⟩, Workspace.new, Workspace.new], 0⟩ : Workspaces).move_window_to_workspace 7 2 = some wss2
      ∧ (wss2.workspaces[0]?).map (fun ws => ws.contains_window 7) = some false
      ∧ (wss2.workspaces[2]?).map (fun ws => ws.windows.count 7) = some 1
      ∧ wss2.workspaces.length = (⟨[⟨[7], .Window 7⟩, Workspace.new, Workspace.new], 0⟩ : Workspaces).workspaces.length)
    ∧ (Workspaces.new 1).move_window_to_workspace 9 0 = some (Workspaces.new 1) :=
  ⟨move_window_to_workspace_spec.1 ⟨[⟨[7], .Window 7⟩, Workspace.new, Workspace.new], 0⟩
      7 0 2 ⟨[7], .Window 7⟩ (by decide) (by decide) (by decide) (by decide) (by decide),
   move_window_to_workspace_spec.2 (Workspaces.new 1) 9 0 (by decide)⟩

/-- Counterexample to C5 as stated: when the in-range target workspace is the
one already holding the window, the call removes the window and re-inserts it
into the same workspace, so the source workspace still contains the window
afterwards, contradicting the claim that the source list never contains it
after the call. -/
theorem move_window_to_workspace_cex :
    (⟨[⟨[7], .Window 7⟩], 0⟩ : Workspaces).move_window_to_workspace 7 0
      = some ⟨[⟨[7], .Window 7⟩], 0⟩
    ∧ (Workspace.contains_window ⟨[7], .Window 7⟩ 7) = true := by
  refine ⟨by decide, by decide⟩

/-- C6 (amended): an observed exit event whose pid has a registered callback
produces exactly one invocation, with arguments (exit_code, 0) for a normal
exit and (0, signal) for a signal-caused death; at most one of the two
arguments is nonzero — exactly one whenever the exit code (respectively the
always-positive signal number) is nonzero, while a process exiting with
status 0 delivers (0, 0). -/
theorem exit_callback_delivery (cbs : List (Int × Nat)) (pid : Int) (cb : Nat)
    (code sig : Int) (h : pidLookup cbs pid = some cb) :
    handleChldEvent cbs (.Exited pid code) = [(cb, (code, 0))]
    ∧ handleChldEvent cbs (.Signaled pid sig) = [(cb, (0, sig))]
    ∧ (∀ (ws : WaitStatus) (inv : Nat × (Int × Int)),
        inv ∈ handleChldEvent cbs ws → inv.2.1 = 0 ∨ inv.2.2 = 0)
    ∧ (code ≠ 0 → exactlyOneNonzero (code, 0))
    ∧ (sig ≠ 0 → exactlyOneNonzero (0, sig)) := by
  refine ⟨by simp [handleChldEvent, h], by simp [handleChldEvent, h], ?_, ?_, ?_⟩
  · intro ws inv hmem
    cases ws with
    | Exited pid2 code2 =>
      cases hl : pidLookup cbs pid2 with
      | none => simp [handleChldEvent, hl] at hmem
      | some cb2 =>
        simp only [handleChldEvent, hl, List.mem_singleton] at hmem
        subst hmem
        exact Or.inr rfl
    | Signaled pid2 sig2 =>
      cases hl : pidLookup cbs pid2 with
      | none => simp [handleChldEvent, hl] at hmem
      | some cb2 =>
        simp only [handleChldEvent, hl, List.mem_singleton] at hmem
        subst hmem
        exact Or.inl rfl
  · intro h0
    exact Or.inl ⟨h0, rfl⟩
  · intro h0
    exact Or.inr ⟨rfl, h0⟩

/-- Witness for C6 at concrete inputs: pid 1 registered with callback 42,
exiting with code 7, or killed by signal 9. -/
theorem exit_callback_delivery_witness :
    handleChldEvent [((1 : Int), 42)] (.Exited 1 7) = [(42, ((7 : Int), (0 : Int)))]
    ∧ handleChldEvent [((1 : Int), 42)] (.Signaled 1 9) = [(42, ((0 : Int), (9 : Int)))]
    ∧ (∀ (ws : WaitStatus) (inv : Nat × (Int × Int)),
        inv ∈ handleChldEvent [((1 : Int), 42)] ws → inv.2.1 = 0 ∨ inv.2.2 = 0)
    ∧ ((7 : Int) ≠ 0 → exactlyOneNonzero (7, 0))
    ∧ ((9 : Int) ≠ 0 → exactlyOneNonzero (0, 9)) :=
  exit_callback_delivery [((1 : Int), 42)] 1 42 7 9 (by decide)

/-- Counterexample to C6 as stated: a process that exits normally with status
0 delivers the pair (0, 0), of which no component is nonzero, refuting that
exactly one of the two delivered values is always nonzero. -/
theorem exit_callback_delivery_cex :
    handleChldEvent [((1 : Int), 42)] (.Exited 1 0) = [(42, ((0 : Int), (0 : Int)))]
    ∧ ¬ exactlyOneNonzero (0, 0) := by
  refine ⟨by decide, by decide⟩

theorem splitLinesSpec_no_newline (bs : List Nat) (h : 10 ∉ bs) :
    splitLinesSpec bs = ([], bs) := by
  induction bs with
  | nil => rfl
  | cons b bs ih =>
    have hb : ¬ b = 10 := fun he => h (he ▸ List.mem_cons_self b bs)
    have hbs : 10 ∉ bs := fun hm => h (List.mem_cons_of_mem b hm)
    simp only [splitLinesSpec, if_neg hb, ih hbs]

theorem splitLinesSpec_append_newline (buf rest : List Nat) (h : 10 ∉ buf) :
    splitLinesSpec (buf ++ 10 :: rest)
      = (buf :: (splitLinesSpec rest).1, (splitLinesSpec rest).2) := by
  induction buf with
  | nil => simp [splitLinesSpec]
  | cons b buf ih =>
    have hb : ¬ b = 10 := fun he => h (he ▸ List.mem_cons_self b buf)
    have hbuf : 10 ∉ buf := fun hm => h (List.mem_cons_of_mem b hm)
    rw [List.cons_append]
    simp only [splitLinesSpec, if_neg hb, ih hbuf]

theorem procLoop_eq_splitLines (avail : List Nat) : ∀ (c : Bool) (buf : List Nat),
    10 ∉ buf → procLoop c buf avail false = splitLinesSpec (buf ++ avail) := by
  induction avail with
  | nil =>
    intro c buf h
    simp [procLoop, splitLinesSpec_no_newline buf h]
  | cons b rest ih =>
    intro c buf h
    by_cases hb : b = 10
    · subst hb
      simp only [procLoop, if_pos rfl]
      rw [ih false [] (by simp)]
      rw [splitLinesSpec_append_newline buf rest h]
      simp
    · simp only [procLoop, if_neg hb]
      rw [ih true (buf ++ [b]) ?_]
      · rw [List.append_assoc, List.singleton_append]
      · intro hm
        rcases List.mem_append.mp hm with hm1 | hm2
        · exact h hm1
        · rw [List.mem_singleton] at hm2
          exact hb hm2.symm

/-- C7: on a readiness notification of a still-open stream, starting from a
retained buffer holding no newline, the drain loop delivers to the callback
exactly the newline-terminated chunks of (retained buffer ++ newly arrived
bytes), each with its trailing newline stripped, and retains exactly the
bytes after the last newline for the next notification — so a retained
partial line is prepended to the next line delivered. -/
theorem line_reader_splits_lines (buf avail : List Nat) (h : 10 ∉ buf) :
    processNotification buf avail = splitLinesSpec (buf ++ avail) :=
  procLoop_eq_splitLines avail false buf h

/-- Witness for C7 at a concrete input: retained byte 65, arriving bytes
66, newline, 67: one line (65 66) is delivered and 67 is retained. -/
theorem line_reader_splits_lines_witness :
    processNotification [65] [66, 10, 67] = splitLinesSpec ([65] ++ [66, 10, 67])
    ∧ splitLinesSpec ([65] ++ [66, 10, 67]) = ([[65, 66]], [67]) :=
  ⟨line_reader_splits_lines [65] [66, 10, 67] (by decide), by decide⟩

theorem find?_map_replace (m : List (KeyPattern × Nat)) (k : KeyPattern) (v : Nat)
    (hany : m.any (fun e => e.1 = k) = true) :
    (m.map (fun e => if e.1 = k then (k, v) else e)).find? (fun e => e.1 = k)
      = some (k, v) := by
  induction m with
  | nil => simp at hany
  | cons e m ih =>
    by_cases he : e.1 = k
    · simp [List.find?_cons, he]
    · rw [List.any_cons] at hany
      have hm : m.any (fun e => e.1 = k) = true := by simpa [he] using hany
      simp only [List.map_cons, if_neg he]
      rw [List.find?_cons]
      simp only [he, decide_False]
      exact ih hm

/-- Insert-or-replace followed by lookup of the same pattern yields the new
value, on any registry contents. -/
theorem kbGet_insert_self (m : List (KeyPattern × Nat)) (k : KeyPattern) (v : Nat) :
    kbGet (kbInsert m k v) k = some v := by
  by_cases hany : m.any (fun e => e.1 = k) = true
  · rw [kbInsert, if_pos hany, kbGet, find?_map_replace m k v hany]
    rfl
  · rw [kbInsert, if_neg hany, kbGet, List.find?_append]
    have hnone : m.find? (fun e => decide (e.1 = k)) = none := by
      rw [List.find?_eq_none]
      intro x hx hpx
      apply hany
      rw [List.any_eq_true]
      exact ⟨x, hx, hpx⟩
    rw [hnone]
    simp [List.find?_cons]

/-- C8: registering pattern P with callback c1 and then again with c2 leaves
exactly one binding for P, whose lookup yields c2; the dispatch for P (which
executes exactly the lookup result) therefore never invokes c1. -/
theorem keybind_reregistration_replaces (m : List (KeyPattern × Nat))
    (P : KeyPattern) (c1 c2 : Nat) :
    kbGet (kbInsert (kbInsert m P c1) P c2) P = some c2
    ∧ (c1 ≠ c2 → dispatchKeybind (kbInsert (kbInsert m P c1) P c2) P ≠ some c1) := by
  refine ⟨kbGet_insert_self _ P c2, ?_⟩
  intro hne hcon
  rw [dispatchKeybind, kbGet_insert_self] at hcon
  exact hne (Option.some_inj.mp hcon).symm

/-- Witness for C8 at a concrete input: pattern (modifier bits 5, keysym 99)
registered with callback 1 then callback 2. -/
theorem keybind_reregistration_replaces_witness :
    kbGet (kbInsert (kbInsert [] ⟨5, 99⟩ 1) ⟨5, 99⟩ 2) ⟨5, 99⟩ = some 2
    ∧ dispatchKeybind (kbInsert (kbInsert [] ⟨5, 99⟩ 1) ⟨5, 99⟩ 2) ⟨5, 99⟩ ≠ some 1 :=
  ⟨(keybind_reregistration_replaces [] ⟨5, 99⟩ 1 2).1,
   (keybind_reregistration_replaces [] ⟨5, 99⟩ 1 2).2 (by decide)⟩

/-- C9: window_under returns the first window in window-list order whose
offset-adjusted bounding box contains the point and whose input region
contains the point relative to its render location, paired with that render
location; a window whose bounding box contains the point but whose input
region does not is skipped without blocking later windows, and the result is
None when no window qualifies. -/
theorem window_under_first_hit (a : WinAttrs) (ws : Workspace) (p : QPt) :
    ws.window_under a p
    = (ws.windows.find? (fun w => (a.sbbox w).containsQ p
        && a.winput w (p.sub (a.render_location w).toQ))).map
      (fun w => (w, a.render_location w)) := by
  obtain ⟨l, t⟩ := ws
  simp only [Workspace.window_under]
  induction l with
  | nil => rfl
  | cons w l ih =>
    by_cases h1 : (a.sbbox w).containsQ p = true
    · by_cases h2 : a.winput w (p.sub (a.render_location w).toQ) = true
      · simp [List.filter_cons, h1, h2, List.findSome?_cons, List.find?_cons]
      · simp only [List.filter_cons, h1, if_true, List.findSome?_cons, h2, if_false,
          List.find?_cons, Bool.and_false, decide_False]
        exact ih
    · simp only [List.filter_cons, h1, Bool.false_eq_true, if_false, List.find?_cons,
        Bool.false_and, decide_False]
      exact ih

/-- C10: the first on_line_stdout call takes ownership of the stdout pipe
and registers a reader for it; a second call on the same child finds the
pipe slot empty, succeeds, and registers nothing, so its callback can never
be invoked (it backs no registration); symmetrically for on_line_stderr. -/
theorem on_line_reader_single_registration (c : ChildProc)
    (regs : List (Nat × Nat)) (p q cb1 cb2 : Nat)
    (h : c.stdout = some p) :
    (on_line_stdout c regs cb1).2 = regs ++ [(p, cb1)]
    ∧ (on_line_stdout c regs cb1).1.stdout = none
    ∧ (on_line_stdout (on_line_stdout c regs cb1).1 (on_line_stdout c regs cb1).2 cb2).2
        = (on_line_stdout c regs cb1).2
    ∧ (cb2 ∉ regs.map (fun e => e.2) → cb2 ≠ cb1
        → cb2 ∉ (on_line_stdout (on_line_stdout c regs cb1).1
            (on_line_stdout c regs cb1).2 cb2).2.map (fun e => e.2))
    ∧ (c.stderr = some q
        → (on_line_stderr c regs cb1).2 = regs ++ [(q, cb1)]
          ∧ (on_line_stderr c regs cb1).1.stderr = none
          ∧ (on_line_stderr (on_line_stderr c regs cb1).1
              (on_line_stderr c regs cb1).2 cb2).2 = (on_line_stderr c regs cb1).2) := by
  refine ⟨?_, ?_, ?_, ?_, ?_⟩
  · simp [on_line_stdout, register_read_line_cb, h]
  · simp [on_line_stdout]
  · simp [on_line_stdout, register_read_line_cb, h]
  · intro hm hne hcon
    simp only [on_line_stdout, register_read_line_cb, h, List.map_append] at hcon
    rcases List.mem_append.mp hcon with hc1 | hc2
    · exact hm hc1
    · simp at hc2
      exact hne hc2
  · intro hq
    refine ⟨?_, ?_, ?_⟩
    · simp [on_line_stderr, register_read_line_cb, hq]
    · simp [on_line_stderr]
    · simp [on_line_stderr, register_read_line_cb, hq]

/-- Witness for C10 at a concrete input: a child with stdout pipe 3 and
stderr pipe 4, callbacks 5 then 6 on an empty registry. -/
theorem on_line_reader_single_registration_witness :
    (on_line_stdout ⟨some 3, some 4⟩ [] 5).2 = [] ++ [(3, 5)]
    ∧ (on_line_stdout ⟨some 3, some 4⟩ [] 5).1.stdout = none
    ∧ (on_line_stdout (on_line_stdout ⟨some 3, some 4⟩ [] 5).1
        (on_line_stdout ⟨some 3, some 4⟩ [] 5).2 6).2
        = (on_line_stdout ⟨some 3, some 4⟩ [] 5).2
    ∧ ((6 : Nat) ∉ ([] : List (Nat × Nat)).map (fun e => e.2) → (6 : Nat) ≠ 5
        → (6 : Nat) ∉ (on_line_stdout (on_line_stdout ⟨some 3, some 4⟩ [] 5).1
            (on_line_stdout ⟨some 3, some 4⟩ [] 5).2 6).2.map (fun e => e.2))
    ∧ ((⟨some 3, some 4⟩ : ChildProc).stderr = some 4
        → (on_line_stderr ⟨some 3, some 4⟩ [] 5).2 = [] ++ [(4, 5)]
          ∧ (on_line_stderr ⟨some 3, some 4⟩ [] 5).1.stderr = none
          ∧ (on_line_stderr (on_line_stderr ⟨some 3, some 4⟩ [] 5).1
              (on_line_stderr ⟨some 3, some 4⟩ [] 5).2 6).2
              = (on_line_stderr ⟨some 3, some 4⟩ [] 5).2) :=
  on_line_reader_single_registration ⟨some 3, some 4⟩ [] 3 4 5 6 (by decide)

end Strata
